import Mathlib

/-!
Shallow embedding of the ThreadShell job scheduler (src/src/scheduler.cpp,
src/include/job.h, and the JobMetadata implementation file) in Lean 4.

Modelling conventions:
* C++ `double` arithmetic is modelled over `ℚ` (the score and the averages
  are exact decimal expressions; the ordering facts proved here are far from
  any rounding boundary).
* Wall-clock time points are modelled as milliseconds since an arbitrary
  epoch (`Nat`); `std::chrono::duration_cast` truncation is explicit.
* Shared mutable job records are modelled by explicit state passing: each
  C++ member function becomes a pure function from the touched state to the
  updated state.
-/

namespace ThreadShell

/-- Embeds `enum class JobPriority { LOW = 0, MEDIUM = 1, HIGH = 2, CRITICAL = 3 }` -/
inductive JobPriority
  | LOW
  | MEDIUM
  | HIGH
  | CRITICAL
deriving DecidableEq, Repr

/-- Embeds `static_cast<int>(priority)` -/
def JobPriority.toNat : JobPriority → Nat
  | .LOW => 0
  | .MEDIUM => 1
  | .HIGH => 2
  | .CRITICAL => 3

/-- Embeds `enum class JobStatus` from job.h -/
inductive JobStatus
  | PENDING
  | RUNNING
  | COMPLETED
  | FAILED
  | KILLED
  | SUSPENDED
  | WAITING_DEPS
deriving DecidableEq, Repr

/-- Embeds `enum class JobType` from job.h -/
inductive JobType
  | INTERACTIVE
  | BATCH
  | ARRAY_JOB
deriving DecidableEq, Repr

/-- Embeds `struct ResourceLimits` from job.h; `max_runtime` is kept in seconds. -/
structure ResourceLimits where
  max_memory_mb : Nat := 1024
  max_runtime_seconds : Nat := 3600
  max_cpu_cores : Int := 1
deriving DecidableEq, Repr

/-- Embeds `struct JobMetadata` from job.h.  Time points are in milliseconds.
`cpu_utilization` and `context_switches` come from `rand()` and are carried
as opaque-to-the-claims data; the fields driven by `<random>` noise are kept
but never constrained. -/
structure JobMetadata where
  job_id : Int
  job_name : String := ""
  command : String
  priority : JobPriority
  status : JobStatus
  type : JobType
  assigned_core_id : Int := -1
  assigned_cores : List Int := []
  limits : ResourceLimits := {}
  memory_usage_mb : Nat := 0
  submit_time : Nat
  start_time : Nat := 0
  end_time : Nat := 0
  actual_runtime_ms : Nat := 0
  dependencies : List Int := []
  dependents : List Int := []
  array_job_id : Int := -1
  array_task_id : Int := -1
  cpu_utilization : ℚ := 0
  context_switches : Nat := 0
  process_id : Int := -1
  exit_code : Int := 0
deriving DecidableEq, Repr

/-- The `JobMetadata(int id, const std::string& cmd, JobPriority p)`
constructor from job.h: status `PENDING`, type `INTERACTIVE`,
`assigned_core_id = -1`, `submit_time = now`, all other fields at their
in-class default initialisers. -/
def mkJob (id : Int) (cmd : String) (p : JobPriority) (now : Nat) : JobMetadata :=
  { job_id := id
    command := cmd
    priority := p
    status := JobStatus.PENDING
    type := JobType.INTERACTIVE
    assigned_core_id := -1
    submit_time := now }

/-- Embeds `haystack.find(needle) != std::string::npos` on character lists. -/
def containsSub (hay need : List Char) : Bool :=
  match hay with
  | [] => need.isEmpty
  | _ :: t => need.isPrefixOf hay || containsSub t need

/-- The whitespace class of ECMAScript `\s` restricted to ASCII, as used by
`std::regex` in `get_estimated_runtime`. -/
def isWsChar (c : Char) : Bool :=
  c = ' ' || c = '\t' || c = '\n' || c = '\r' || c = '\x0b' || c = '\x0c'

/-- Embeds `\d` of `std::regex`. -/
def isDigitChar (c : Char) : Bool :=
  '0' ≤ c && c ≤ '9'

/-- Numeric value of a run of decimal digits (the semantics `std::stoi`
gives to a matched `(\d+)` group, overflow aside). -/
def digitsToNat (ds : List Char) : Nat :=
  ds.foldl (fun acc c => acc * 10 + (c.toNat - 48)) 0

/-- Attempt to match the regex `sleep\s+(\d+)` anchored at the head of the
list, returning the numeric value of the captured group. -/
def sleepMatchAt (l : List Char) : Option Nat :=
  if ("sleep".toList).isPrefixOf l then
    let rest := l.drop 5
    let ws := rest.takeWhile isWsChar
    let after := rest.dropWhile isWsChar
    let ds := after.takeWhile isDigitChar
    if ws ≠ [] ∧ ds ≠ [] then some (digitsToNat ds) else none
  else none

/-- Embeds `std::regex_search(cmd, matches, sleep_regex)` for the pattern
`sleep\s+(\d+)`: the leftmost position admitting a match wins. -/
def sleepSearch : List Char → Option Nat
  | [] => none
  | c :: t =>
    match sleepMatchAt (c :: t) with
    | some n => some n
    | none => sleepSearch t

/-- Embeds `JobMetadata::get_estimated_runtime` (seconds).  The command is
lowercased (`::tolower`), a `sleep N` command returns `N` (or 10 when the
regex fails), otherwise a base of 5 seconds is scaled by keyword factors and
`command.length() / 20` is added. -/
def get_estimated_runtime (command : String) : Nat :=
  let cmd := command.toList.map Char.toLower
  if containsSub cmd "sleep".toList then
    match sleepSearch cmd with
    | some n => n
    | none => 10
  else
    let base := 5
    let base := if containsSub cmd "for".toList || containsSub cmd "while".toList then
      base * 3 else base
    let base := if containsSub cmd "find".toList || containsSub cmd "grep".toList then
      base * 2 else base
    let base := if containsSub cmd "make".toList || containsSub cmd "compile".toList then
      base * 5 else base
    let base := if containsSub cmd "download".toList || containsSub cmd "wget".toList
        || containsSub cmd "curl".toList then
      base * 4 else base
    base + command.length / 20

/-- Embeds `JobMetadata::calculate_priority_score`, with `now` the current wall
clock in milliseconds.  `wait_minutes` truncates to whole minutes exactly as
`duration_cast<minutes>` does. -/
def calculate_priority_score (j : JobMetadata) (now : Nat) : ℚ :=
  let score : ℚ := (j.priority.toNat : ℚ)
  let est : Nat := get_estimated_runtime j.command
  let runtime_factor : ℚ := 1 / (1 + (est : ℚ) / 60)
  let score := score + runtime_factor * (1 / 10)
  let wait_minutes : Nat := (now - j.submit_time) / 60000
  let score := score + (wait_minutes : ℚ) * (1 / 100)
  let score := if j.status = JobStatus.WAITING_DEPS then score - 1 else score
  let score := if j.type = JobType.INTERACTIVE then score + 1 / 5 else score
  let score := if j.priority = JobPriority.CRITICAL then score + 2 else score
  score

/-- Embeds `JobScheduler::JobCompare::operator()` — the comparator the scheduler
instantiates `std::priority_queue` with (the nested struct in the scheduler
class, which shadows the score-based comparator of job.h):
`static_cast<int>(a->priority) < static_cast<int>(b->priority)`. -/
def JobCompare (a b : JobMetadata) : Bool :=
  a.priority.toNat < b.priority.toNat

/-- Embeds `job_queue_.top()`: a maximal element of the heap contents with respect
to `JobCompare` (any binary heap built with a strict weak order comparator
surfaces an element no other element exceeds; on the concrete two-element
contents used below every heap shape gives the same answer). -/
def queue_top : List JobMetadata → Option JobMetadata
  | [] => none
  | j :: rest =>
    match queue_top rest with
    | none => some j
    | some m => if JobCompare j m then some m else some j

/-- The Core Table component of the scheduler:
`std::vector<bool> core_availability_` (`true` = free) paired with
`std::vector<...> core_last_used_` (time points, in ms). -/
structure CoreTable where
  core_availability : List Bool
  core_last_used : List Nat
deriving DecidableEq, Repr

/-- The linear scan of `JobScheduler::assign_core`: index of the first free
slot, if any. -/
def assign_core_scan : List Bool → Option Nat
  | [] => none
  | true :: _ => some 0
  | false :: rest => (assign_core_scan rest).map (· + 1)

/-- Embeds `JobScheduler::assign_core`: first free slot is marked unavailable and
stamped `last_used = now`; returns `-1` when no core is available. -/
def assign_core (ct : CoreTable) (now : Nat) : Int × CoreTable :=
  match assign_core_scan ct.core_availability with
  | some i =>
      ((i : Int),
       { core_availability := ct.core_availability.set i false
         core_last_used := ct.core_last_used.set i now })
  | none => (-1, ct)

/-- The slot-collecting loop of `JobScheduler::assign_multiple_cores`:
walk the availability vector from index `i`, taking free slots while fewer
than `need` more are still wanted, marking each taken slot unavailable. -/
def amc_loop : List Bool → Nat → Nat → List Nat × List Bool
  | [], _, _ => ([], [])
  | a :: rest, i, need =>
    if need = 0 then ([], a :: rest)
    else if a then
      let r := amc_loop rest (i + 1) (need - 1)
      (i :: r.1, false :: r.2)
    else
      let r := amc_loop rest (i + 1) need
      (r.1, a :: r.2)

/-- Embeds `JobScheduler::assign_multiple_cores(count)`: collects up to `count`
free slots front-to-back (stamping `last_used = now` on each) and returns
whatever it gathered — there is no rollback when fewer than `count` slots
were free. -/
def assign_multiple_cores (ct : CoreTable) (count : Nat) (now : Nat) :
    List Nat × CoreTable :=
  let r := amc_loop ct.core_availability 0 count
  (r.1,
   { core_availability := r.2
     core_last_used := r.1.foldl (fun lu i => lu.set i now) ct.core_last_used })

/-- The number of free (`true`) slots of an availability vector. -/
def countTrue : List Bool → Nat
  | [] => 0
  | true :: r => countTrue r + 1
  | false :: r => countTrue r

/-- Embeds `JobScheduler::release_core`: in-range slots are set available,
out-of-range ids (including `-1`) are ignored. -/
def release_core (ct : CoreTable) (core_id : Int) : CoreTable :=
  if 0 ≤ core_id ∧ core_id < (ct.core_availability.length : Int) then
    { ct with core_availability := ct.core_availability.set core_id.toNat true }
  else ct

/-- The opening lines of `JobScheduler::execute_job`, before the core
assignment: `job->status = RUNNING; job->start_time = now;`.
(`thread_id` is recorded too but carries no information the claims use.)
No lock is held here, so this intermediate record is observable. -/
def execute_job_set_running (j : JobMetadata) (now : Nat) : JobMetadata :=
  { j with status := JobStatus.RUNNING, start_time := now }

/-- The start phase of `JobScheduler::execute_job` through the core
assignment: set RUNNING, then `assigned_core_id = assign_core()` —
whatever `assign_core` returned, `-1` included. -/
def execute_job_begin (j : JobMetadata) (ct : CoreTable) (now : Nat) :
    JobMetadata × CoreTable :=
  let j1 := execute_job_set_running j now
  let r := assign_core ct now
  ({ j1 with assigned_core_id := r.1 }, r.2)

/-- The result the parent observes from `waitpid`: whether
`WIFEXITED(status)` held, and `WEXITSTATUS(status)` when it did. -/
structure WaitStatus where
  exited : Bool
  exit_status : Int
deriving DecidableEq, Repr

/-- The post-`waitpid` update of `JobScheduler::execute_job`
(the `pid > 0` parent branch): record `end_time` and `actual_runtime`, then
unconditionally overwrite `status` with COMPLETED (exit code 0), or FAILED
(nonzero exit code or abnormal termination, the latter with
`exit_code = -1`). -/
def execute_job_reap (j : JobMetadata) (end_ms : Nat) (w : WaitStatus) :
    JobMetadata :=
  let j1 := { j with end_time := end_ms, actual_runtime_ms := end_ms - j.start_time }
  if w.exited then
    let j2 := { j1 with exit_code := w.exit_status }
    { j2 with
      status := if j2.exit_code = 0 then JobStatus.COMPLETED else JobStatus.FAILED }
  else
    { j1 with status := JobStatus.FAILED, exit_code := -1 }

/-- Embeds `JobScheduler::kill_job`: `find_if` over `active_jobs_` by id; when a
job is found its status is set to KILLED and `true` is returned — the
current status is not inspected.  Returns the flag and the updated active
list. -/
def kill_job : List JobMetadata → Int → Bool × List JobMetadata
  | [], _ => (false, [])
  | j :: rest, jid =>
    if j.job_id = jid then
      (true, { j with status := JobStatus.KILLED } :: rest)
    else
      let r := kill_job rest jid
      (r.1, j :: r.2)

/-- Embeds `JobMetadata::dependencies_satisfied`: every dependency id must be found
in `all_jobs` (first match by `find_if`) with status COMPLETED. -/
def dependencies_satisfied (j : JobMetadata) (all_jobs : List JobMetadata) : Bool :=
  j.dependencies.all fun dep =>
    match all_jobs.find? (fun k => k.job_id = dep) with
    | some k => k.status = JobStatus.COMPLETED
    | none => false

/-- One iteration of the `update_job_dependencies` loop, at position `i` of
the (possibly already partially promoted) job list: a WAITING_DEPS job that
depends on the completed job and whose dependencies are now all COMPLETED is
promoted to PENDING in place. -/
def promote_at (completed_id : Int) (jobs : List JobMetadata) (i : Nat) :
    List JobMetadata :=
  match jobs.get? i with
  | none => jobs
  | some j =>
    if j.status = JobStatus.WAITING_DEPS ∧ j.dependencies.contains completed_id
        ∧ dependencies_satisfied j jobs then
      jobs.set i { j with status := JobStatus.PENDING }
    else jobs

/-- Embeds `JobScheduler::update_job_dependencies(completed_job)`: a front-to-back
pass over `all_jobs_`, each check reading the current (mutated-so-far)
list, exactly as the C++ range-for over shared pointers does. -/
def update_job_dependencies (completed_id : Int) (jobs : List JobMetadata) :
    List JobMetadata :=
  (List.range jobs.length).foldl (promote_at completed_id) jobs

/-- Embeds `struct SystemStats` from the scheduler header; doubles as `ℚ`,
`start_time` in ms. -/
structure SystemStats where
  total_jobs_submitted : Nat := 0
  total_jobs_completed : Nat := 0
  total_jobs_failed : Nat := 0
  total_jobs_killed : Nat := 0
  average_turnaround_time : ℚ := 0
  average_wait_time : ℚ := 0
  system_throughput : ℚ := 0
  current_memory_usage_mb : Nat := 0
  start_time : Nat := 0
deriving DecidableEq, Repr

/-- The scheduler state the stats / completion claims touch. -/
structure SchedulerState where
  all_jobs : List JobMetadata := []
  active_jobs : List JobMetadata := []
  completed_jobs : List JobMetadata := []
  stats : SystemStats := {}
deriving DecidableEq, Repr

/-- Embeds `JobScheduler::get_system_stats`: returns the stored `stats_` snapshot
under the lock — nothing is recomputed on the way out. -/
def get_system_stats (s : SchedulerState) : SystemStats :=
  s.stats

/-- Embeds `true` for the three terminal statuses the worker moves to
`completed_jobs_`. -/
def isTerminal (st : JobStatus) : Bool :=
  st = JobStatus.COMPLETED || st = JobStatus.FAILED || st = JobStatus.KILLED

/-- Erase the first element with the given id (`std::find` + `erase` in the
worker; shared-pointer identity is keyed by the unique job id here). -/
def eraseFirstById : List JobMetadata → Int → List JobMetadata
  | [], _ => []
  | j :: rest, jid =>
    if j.job_id = jid then rest else j :: eraseFirstById rest jid

/-- The completion block of `JobScheduler::worker_function` (after
`execute_job` returns): if the job is still in `active_jobs_` it is removed;
if its status is terminal it is appended to `completed_jobs_`, the
completed/failed counters are bumped (KILLED bumps neither here), and
dependents are promoted.  The averages in `stats_` are not touched. -/
def worker_finish (s : SchedulerState) (j : JobMetadata) : SchedulerState :=
  if (s.active_jobs.find? (fun k => k.job_id = j.job_id)).isSome then
    let s1 := { s with active_jobs := eraseFirstById s.active_jobs j.job_id }
    if isTerminal j.status then
      let stats1 :=
        if j.status = JobStatus.COMPLETED then
          { s1.stats with total_jobs_completed := s1.stats.total_jobs_completed + 1 }
        else if j.status = JobStatus.FAILED then
          { s1.stats with total_jobs_failed := s1.stats.total_jobs_failed + 1 }
        else s1.stats
      { s1 with
        completed_jobs := s1.completed_jobs ++ [j]
        stats := stats1
        all_jobs := update_job_dependencies j.job_id s1.all_jobs }
    else s1
  else s

/-- Embeds `JobScheduler::update_system_stats` (defined in the source, but — see
the C7/C8 theorems — never invoked): recompute the averages over
`completed_jobs_`, the throughput over whole elapsed minutes, and the
current memory sum over `active_jobs_`. -/
def update_system_stats (s : SchedulerState) (now : Nat) : SchedulerState :=
  if s.completed_jobs.isEmpty then s
  else
    let total_turnaround : ℚ :=
      (s.completed_jobs.map fun j => ((j.end_time : ℚ) - (j.submit_time : ℚ))).sum
    let total_wait : ℚ :=
      (s.completed_jobs.map fun j => ((j.start_time : ℚ) - (j.submit_time : ℚ))).sum
    let stats1 :=
      { s.stats with
        average_turnaround_time := total_turnaround / (s.completed_jobs.length : ℚ)
        average_wait_time := total_wait / (s.completed_jobs.length : ℚ) }
    let minutes : Nat := (now - stats1.start_time) / 60000
    let stats2 :=
      { stats1 with
        system_throughput :=
          if 0 < minutes then (stats1.total_jobs_completed : ℚ) / (minutes : ℚ)
          else stats1.system_throughput }
    let stats3 :=
      { stats2 with
        current_memory_usage_mb :=
          (s.active_jobs.map (fun j => j.memory_usage_mb)).sum }
    { s with stats := stats3 }

/-- Embeds `JobScheduler::cleanup_completed_jobs` (defined in the source, never
invoked): when the list exceeds 1000 entries, drop the oldest down to
exactly 1000 (`erase(begin, begin + (size - 1000))`). -/
def cleanup_completed_jobs (l : List JobMetadata) : List JobMetadata :=
  if 1000 < l.length then l.drop (l.length - 1000) else l

/-- Embeds `JobScheduler::simulate_memory_usage`: 10 MB base plus
`command.length() / 10`, times 5 when the (not lowercased) command contains
`make`; the result is clamped with `std::min` against the job's declared
memory limit. -/
def simulate_memory_usage (j : JobMetadata) : JobMetadata :=
  let base := 10 + j.command.length / 10
  let base := if containsSub j.command.toList "make".toList then base * 5 else base
  { j with memory_usage_mb := min base j.limits.max_memory_mb }

/-- space-or-tab, the trim class `" \t"` used throughout
`parse_job_script`. -/
def isSpTab (c : Char) : Bool :=
  c = ' ' || c = '\t'

/-- Embeds `s.erase(0, s.find_first_not_of(" \t")); s.erase(s.find_last_not_of(" \t") + 1)`:
trim spaces and tabs from both ends. -/
def trimChars (s : List Char) : List Char :=
  ((s.dropWhile isSpTab).reverse.dropWhile isSpTab).reverse

/-- Embeds `line.substr(line.find(":") + 1)`: everything after the first colon;
when there is no colon, `find` yields `npos` and `npos + 1` wraps to `0`,
so the whole line comes back. -/
def afterColon (s : List Char) : List Char :=
  if s.contains ':' then (s.dropWhile (fun c => c ≠ ':')).drop 1 else s

/-- Embeds `std::stoul` on a decimal string: leading whitespace is skipped, a
nonempty digit run is required, trailing junk is ignored; `none` models the
`std::invalid_argument` throw. -/
def parseNatCpp (s : List Char) : Option Nat :=
  let s1 := s.dropWhile isWsChar
  let ds := s1.takeWhile isDigitChar
  if ds.isEmpty then none else some (digitsToNat ds)

/-- Embeds `std::stoi` on a decimal string, with an optional sign. -/
def parseIntCpp (s : List Char) : Option Int :=
  let s1 := s.dropWhile isWsChar
  match s1 with
  | '-' :: rest =>
    let ds := rest.takeWhile isDigitChar
    if ds.isEmpty then none else some (-(digitsToNat ds : Int))
  | '+' :: rest =>
    let ds := rest.takeWhile isDigitChar
    if ds.isEmpty then none else some ((digitsToNat ds : Int))
  | _ =>
    let ds := s1.takeWhile isDigitChar
    if ds.isEmpty then none else some ((digitsToNat ds : Int))

/-- Split on `,` with `std::getline(ss, dep, ',')` semantics: the empty
string yields no tokens, and a trailing delimiter does not produce a final
empty token. -/
def splitAux : List Char → List Char → List (List Char)
  | [], acc => [acc.reverse]
  | ',' :: rest, acc => acc.reverse :: splitAux rest []
  | c :: rest, acc => splitAux rest (c :: acc)

/-- Embeds `while (std::getline(ss, dep, ','))` over the whole string. -/
def splitComma (s : List Char) : List (List Char) :=
  if s.isEmpty then []
  else if s.getLast? = some ',' then (splitAux s []).dropLast
  else splitAux s []

/-- The header fields `parse_job_script` accumulates before the command
line, with the defaults of the local variables in the source. -/
structure ScriptHeader where
  job_name : String := ""
  priority : JobPriority := JobPriority.MEDIUM
  memory_limit : Nat := 1024
  runtime_limit : Int := 3600
  cores : Int := 1
  dependencies : List Int := []
deriving DecidableEq, Repr

/-- The header-dispatch chain of `parse_job_script` applied to one `#` line.
Each branch triggers on substring containment (`line.find(key) != npos`),
takes the text after the first colon, trims, and parses; `none` models a
`std::stoul` / `std::stoi` throw escaping the parser. -/
def applyHeader (st : ScriptHeader) (line : List Char) : Option ScriptHeader :=
  if containsSub line "JOB_NAME:".toList then
    some { st with job_name := String.mk (trimChars (afterColon line)) }
  else if containsSub line "PRIORITY:".toList then
    let pri := trimChars (afterColon line)
    let p :=
      if pri = "HIGH".toList then JobPriority.HIGH
      else if pri = "LOW".toList then JobPriority.LOW
      else if pri = "CRITICAL".toList then JobPriority.CRITICAL
      else st.priority
    some { st with priority := p }
  else if containsSub line "MEMORY_LIMIT:".toList then
    match parseNatCpp ((afterColon line).dropWhile isSpTab) with
    | some n => some { st with memory_limit := n }
    | none => none
  else if containsSub line "RUNTIME_LIMIT:".toList then
    match parseIntCpp ((afterColon line).dropWhile isSpTab) with
    | some n => some { st with runtime_limit := n }
    | none => none
  else if containsSub line "CORES:".toList then
    match parseIntCpp ((afterColon line).dropWhile isSpTab) with
    | some n => some { st with cores := n }
    | none => none
  else if containsSub line "DEPENDENCIES:".toList then
    match
      (splitComma ((afterColon line).dropWhile isSpTab)).mapM
        (fun d => parseIntCpp (trimChars d)) with
    | some ds => some { st with dependencies := st.dependencies ++ ds }
    | none => none
  else some st

/-- The line loop of `JobScheduler::parse_job_script`: the first line that
is empty or does not begin with `#` becomes the command and scanning stops
(a blank line therefore stops scanning with an empty command); after the
loop an empty command is the `No command found` error. -/
def parseScriptLines : List String → ScriptHeader → Except String (String × ScriptHeader)
  | [], _ => Except.error "No command found in job script"
  | line :: rest, st =>
    let cs := line.toList
    if cs.isEmpty ∨ cs.head? ≠ some '#' then
      if cs.isEmpty then Except.error "No command found in job script"
      else Except.ok (line, st)
    else
      match applyHeader st cs with
      | some st1 => parseScriptLines rest st1
      | none => Except.error "invalid numeric field in job script"

/-- Embeds `JobScheduler::parse_job_script` on the file contents (as lines), with
the submission inlined: on success the job record is built exactly as
`submit_job` / `submit_job_with_deps` plus the post-submission field
assignments do it (name, limits, `type = BATCH`, WAITING_DEPS when
dependencies are unmet); on error no record comes into being. -/
def parse_job_script (lines : List String) (all_jobs : List JobMetadata)
    (next_id : Int) (now : Nat) : Except String JobMetadata :=
  match parseScriptLines lines {} with
  | Except.error e => Except.error e
  | Except.ok (cmd, st) =>
    let job := mkJob next_id cmd st.priority now
    let job := { job with dependencies := st.dependencies }
    let job :=
      if st.dependencies ≠ [] ∧ ¬ dependencies_satisfied job all_jobs then
        { job with status := JobStatus.WAITING_DEPS }
      else job
    let job := if st.job_name ≠ "" then { job with job_name := st.job_name } else job
    Except.ok
      { job with
        limits :=
          { max_memory_mb := st.memory_limit
            max_runtime_seconds := st.runtime_limit.toNat
            max_cpu_cores := st.cores }
        type := JobType.BATCH }

/-! Concrete instances used by the counterexamples and witnesses. -/

/-- A LOW-priority job submitted at time 0 (so it has aged 200 minutes by
`tC1`); the constructor defaults give it type INTERACTIVE. -/
def jobA1 : JobMetadata := mkJob 1 "a" JobPriority.LOW 0

/-- A MEDIUM-priority job submitted at `tC1` (no aging). -/
def jobB1 : JobMetadata := mkJob 2 "a" JobPriority.MEDIUM 12000000

/-- 200 minutes past the epoch, in milliseconds. -/
def tC1 : Nat := 12000000

/-- A job in the middle of its `execute_job` run. -/
def jobRunningC2 : JobMetadata :=
  { mkJob 7 "sleep 5" JobPriority.MEDIUM 0 with
    status := JobStatus.RUNNING, start_time := 100, process_id := 42 }

/-- A freshly constructed job, before `execute_job` assigns a core. -/
def jobC3 : JobMetadata := mkJob 3 "sleep 1" JobPriority.MEDIUM 0

/-- A two-slot core table whose slot 0 is taken and slot 1 free. -/
def ctC3 : CoreTable := { core_availability := [false, true], core_last_used := [0, 0] }

/-- A one-slot core table with its only slot free. -/
def ctC4 : CoreTable := { core_availability := [true], core_last_used := [0] }

/-- An active job that has been suspended (`suspend_job` leaves it in
`active_jobs_`). -/
def jobSuspC6 : JobMetadata :=
  { mkJob 4 "sleep 9" JobPriority.MEDIUM 0 with
    status := JobStatus.SUSPENDED, start_time := 10, process_id := 77 }

/-- One worker-loop round for a job that `execute_job` has finished: the
worker inserted the popped job into `active_jobs_`, ran it (its status now
terminal or not), and then executes the completion block. -/
def trace_step (s : SchedulerState) (j : JobMetadata) : SchedulerState :=
  worker_finish { s with active_jobs := s.active_jobs ++ [j] } j

/-- A sequence of worker-loop rounds. -/
def runTrace (s : SchedulerState) (js : List JobMetadata) : SchedulerState :=
  js.foldl trace_step s

/-- A job that has completed: submitted at 0, started at 200, ended at 500,
exit code 0. -/
def jobDoneC7 : JobMetadata :=
  { mkJob 11 "true" JobPriority.MEDIUM 0 with
    status := JobStatus.COMPLETED, start_time := 200, end_time := 500,
    actual_runtime_ms := 300 }

/-- Scheduler state in which the worker has popped `jobDoneC7` into the
active set and `execute_job` has just returned. -/
def stateC7 : SchedulerState := { active_jobs := [jobDoneC7] }

/-- A completed job used to grow the completed list. -/
def jobC8 : JobMetadata :=
  { mkJob 8 "true" JobPriority.MEDIUM 0 with
    status := JobStatus.COMPLETED, start_time := 1, end_time := 2 }

/-- A job script whose headers are followed by a blank line and then a
command line. -/
def linesC9 : List String := ["# JOB_NAME: x", "", "echo hi"]

/-- A job script that parses successfully. -/
def linesC9W : List String := ["#PRIORITY: HIGH", "echo ok"]

/-- The job record `parse_job_script` produces for `linesC9W`. -/
def jC9W : JobMetadata :=
  { mkJob 1 "echo ok" JobPriority.HIGH 0 with type := JobType.BATCH }

/-- Two job lists agree on ids and on COMPLETED-ness, position by position.
The promotion pass of `update_job_dependencies` only rewrites WAITING_DEPS
statuses to PENDING, so the list before and the list during the pass stay
in this relation — and `dependencies_satisfied` cannot tell them apart. -/
inductive SameComp : List JobMetadata → List JobMetadata → Prop
  | nil : SameComp [] []
  | cons (a b : JobMetadata) (l l2 : List JobMetadata) :
      a.job_id = b.job_id →
      (a.status = JobStatus.COMPLETED ↔ b.status = JobStatus.COMPLETED) →
      SameComp l l2 → SameComp (a :: l) (b :: l2)

/-- A dependency record already COMPLETED. -/
def jobDepC5 : JobMetadata :=
  { mkJob 1 "true" JobPriority.MEDIUM 0 with status := JobStatus.COMPLETED }

/-- A job waiting on job 1. -/
def jobWaitC5 : JobMetadata :=
  { mkJob 2 "echo done" JobPriority.MEDIUM 0 with
    status := JobStatus.WAITING_DEPS, dependencies := [1] }

/-- The `all_jobs_` list at the moment job 1 completes. -/
def jobsC5 : List JobMetadata := [jobDepC5, jobWaitC5]

end ThreadShell

namespace ThreadShell

/-! Helper lemmas shared by several claims. -/

theorem queue_top_eq_none {l : List JobMetadata} (h : queue_top l = none) : l = [] := by
  cases l with
  | nil => rfl
  | cons a rest =>
    simp only [queue_top] at h
    cases hr : queue_top rest with
    | none => rw [hr] at h; exact absurd h (by simp)
    | some m => rw [hr] at h; by_cases hc : JobCompare a m <;> simp [hc] at h

theorem queue_top_maximal (q : List JobMetadata) (j : JobMetadata)
    (h : queue_top q = some j) :
    ∀ k ∈ q, k.priority.toNat ≤ j.priority.toNat := by
  induction q generalizing j with
  | nil => simp [queue_top] at h
  | cons a rest ih =>
    intro k hk
    simp only [queue_top] at h
    cases hr : queue_top rest with
    | none =>
      have hrest : rest = [] := queue_top_eq_none hr
      subst hrest
      simp only [queue_top] at h
      simp only [Option.some.injEq] at h
      subst h
      rcases List.mem_cons.mp hk with rfl | hk
      · exact Nat.le_refl _
      · simp at hk
    | some m =>
      rw [hr] at h
      cases hcb : JobCompare a m with
      | true =>
        simp only [hcb, if_true, Option.some.injEq] at h
        subst h
        rcases List.mem_cons.mp hk with rfl | hk
        · exact Nat.le_of_lt (by simpa [JobCompare] using hcb)
        · exact ih m hr k hk
      | false =>
        simp only [hcb, Bool.false_eq_true, if_false, Option.some.injEq] at h
        subst h
        rcases List.mem_cons.mp hk with rfl | hk
        · exact Nat.le_refl _
        · have hm := ih m hr k hk
          have hj : m.priority.toNat ≤ a.priority.toNat := by
            have hle := hcb
            simp only [JobCompare, decide_eq_false_iff_not, Nat.not_lt] at hle
            exact hle
          exact Nat.le_trans hm hj

theorem assign_core_scan_sound (l : List Bool) (i : Nat)
    (h : assign_core_scan l = some i) :
    i < l.length ∧ l.get? i = some true := by
  induction l generalizing i with
  | nil => simp [assign_core_scan] at h
  | cons a rest ih =>
    cases a with
    | true =>
      simp only [assign_core_scan, Option.some.injEq] at h
      subst h
      simp
    | false =>
      simp only [assign_core_scan, Option.map_eq_some'] at h
      obtain ⟨i0, hi0, rfl⟩ := h
      obtain ⟨hlt, hget⟩ := ih i0 hi0
      constructor
      · simpa using Nat.succ_lt_succ hlt
      · simpa using hget

theorem get?_set_self {α : Type} (l : List α) (i : Nat) (x : α) (h : i < l.length) :
    (l.set i x).get? i = some x := by
  induction l generalizing i with
  | nil => simp at h
  | cons a rest ih =>
    cases i with
    | zero => simp
    | succ n => simpa using ih n (by simpa using Nat.lt_of_succ_lt_succ h)

theorem est_runtime_a : get_estimated_runtime "a" = 5 := by decide

theorem score_jobA1 : calculate_priority_score jobA1 tC1 = 149 / 65 := by
  simp only [calculate_priority_score, jobA1, mkJob, tC1, est_runtime_a]
  norm_num [JobPriority.toNat]
  rw [if_neg (by decide), if_neg (by decide)]
  norm_num

theorem score_jobB1 : calculate_priority_score jobB1 tC1 = 84 / 65 := by
  simp only [calculate_priority_score, jobB1, mkJob, tC1, est_runtime_a]
  norm_num [JobPriority.toNat]
  rw [if_neg (by decide), if_neg (by decide)]
  norm_num

/-! Claim theorems. -/

/-- C1 (counterexample): with the default PRIORITY_FIRST policy the queue
does not pop the job of maximal `priority_score`.  Job `jobA1` (LOW, aged
200 minutes) has a strictly higher score than `jobB1` (MEDIUM, fresh), yet
the scheduler's comparator ranks `jobA1` below `jobB1` and the heap top is
`jobB1`. -/
theorem C1_counterexample :
    calculate_priority_score jobB1 tC1 < calculate_priority_score jobA1 tC1 ∧
    JobCompare jobA1 jobB1 = true ∧
    queue_top [jobA1, jobB1] = some jobB1 := by
  refine ⟨?_, by decide, by decide⟩
  rw [score_jobA1, score_jobB1]
  norm_num

/-- C1 (amended): the scheduler's priority queue orders jobs by the raw
integer priority rank alone — `JobScheduler::JobCompare` compares
`static_cast<int>(priority)` and never consults `calculate_priority_score`
(which does implement the §4.2 formula) — so the worker pops a job whose
raw priority rank is maximal among the jobs in the Ready Set. -/
theorem C1_amended_thm (q : List JobMetadata) (j : JobMetadata)
    (h : queue_top q = some j) :
    ∀ k ∈ q, k.priority.toNat ≤ j.priority.toNat :=
  queue_top_maximal q j h

/-- C1 amended, witnessed on the concrete two-job queue of the
counterexample. -/
theorem C1_amended_witness :
    jobA1.priority.toNat ≤ jobB1.priority.toNat :=
  C1_amended_thm [jobA1, jobB1] jobB1 (by decide) jobA1 (by decide)

/-- C2 (counterexample): KILLED is not terminal.  `kill_job` flips an
active RUNNING job to KILLED and returns true, yet when the lifecycle
driver's blocking `waitpid` returns with a normal exit of status 0, the
post-wait update overwrites the KILLED status with COMPLETED. -/
theorem C2_counterexample :
    (kill_job [jobRunningC2] 7).1 = true ∧
    (kill_job [jobRunningC2] 7).2 =
      [{ jobRunningC2 with status := JobStatus.KILLED }] ∧
    (execute_job_reap { jobRunningC2 with status := JobStatus.KILLED } 600
        { exited := true, exit_status := 0 }).status = JobStatus.COMPLETED := by
  refine ⟨by decide, by decide, by decide⟩

/-- C2 (amended): the lifecycle driver's post-`waitpid` update assigns
COMPLETED or FAILED unconditionally, whatever the job's status was when the
child exited — a KILLED status set while the driver was blocked in
`waitpid` is overwritten, so KILLED is not preserved by the reap. -/
theorem C2_amended_thm (j : JobMetadata) (end_ms : Nat) (w : WaitStatus) :
    (execute_job_reap j end_ms w).status = JobStatus.COMPLETED ∨
    (execute_job_reap j end_ms w).status = JobStatus.FAILED := by
  unfold execute_job_reap
  by_cases he : w.exited
  · simp only [he, if_true]
    by_cases hz : w.exit_status = 0
    · left; simp [hz]
    · right; simp [hz]
  · right; simp [he]

/-- C4 (counterexample): with one free slot and a request for two,
`assign_multiple_cores` returns a partial allocation of one slot and leaves
that slot marked unavailable — it neither fails nor rolls back. -/
theorem C4_counterexample :
    (assign_multiple_cores ctC4 2 0).1 = [0] ∧
    (assign_multiple_cores ctC4 2 0).1.length ≠ 2 ∧
    (assign_multiple_cores ctC4 2 0).1.length ≠ 0 ∧
    (assign_multiple_cores ctC4 2 0).2.core_availability = [false] ∧
    ctC4.core_availability = [true] := by
  refine ⟨by decide, by decide, by decide, by decide, by decide⟩

theorem amc_loop_count (avail : List Bool) (i count : Nat) :
    (amc_loop avail i count).1.length = min count (countTrue avail) ∧
    countTrue (amc_loop avail i count).2 =
      countTrue avail - min count (countTrue avail) := by
  induction avail generalizing i count with
  | nil => simp [amc_loop, countTrue]
  | cons a rest ih =>
    by_cases hc : count = 0
    · subst hc
      cases a <;> simp [amc_loop, countTrue]
    · cases a with
      | true =>
        obtain ⟨ih1, ih2⟩ := ih (i + 1) (count - 1)
        simp only [amc_loop, if_neg hc, if_true, List.length_cons, countTrue,
          ih1, ih2]
        omega
      | false =>
        obtain ⟨ih1, ih2⟩ := ih (i + 1) count
        simp only [amc_loop, if_neg hc, Bool.false_eq_true, if_false,
          countTrue, ih1, ih2]
        exact ⟨trivial, trivial⟩

/-- C4 (amended): `allocate_n(k)` takes the free slots front-to-back up to
`k` of them: it returns `min(k, free)` slot ids, each marked unavailable
(the free count drops by exactly the number returned).  When fewer than `k`
slots are free the call does not fail and does not roll back — it keeps the
partial allocation of all previously-free slots. -/
theorem C4_amended_thm (ct : CoreTable) (count now : Nat) :
    (assign_multiple_cores ct count now).1.length =
      min count (countTrue ct.core_availability) ∧
    countTrue (assign_multiple_cores ct count now).2.core_availability =
      countTrue ct.core_availability -
        min count (countTrue ct.core_availability) := by
  obtain ⟨h1, h2⟩ := amc_loop_count ct.core_availability 0 count
  exact ⟨h1, h2⟩

/-- C6 (counterexample): `kill` of a SUSPENDED job — a non-RUNNING state —
succeeds: the job sits in `active_jobs_`, so `kill_job` returns true and
flips its status to KILLED, contradicting both halves of the claim. -/
theorem C6_counterexample :
    jobSuspC6.status = JobStatus.SUSPENDED ∧
    (kill_job [jobSuspC6] 4).1 = true ∧
    (kill_job [jobSuspC6] 4).2 =
      [{ jobSuspC6 with status := JobStatus.KILLED }] := by
  refine ⟨by decide, by decide, by decide⟩

/-- C6 (amended): `kill(id)` succeeds exactly when a job with that id is in
the active set, whatever its status there (RUNNING or SUSPENDED alike);
when no active job carries the id it returns false and leaves the active
set unchanged. -/
theorem C6_amended_thm (active : List JobMetadata) (jid : Int) :
    ((kill_job active jid).1 = true ↔ ∃ j ∈ active, j.job_id = jid) ∧
    ((kill_job active jid).1 = false → (kill_job active jid).2 = active) := by
  induction active with
  | nil => simp [kill_job]
  | cons a rest ih =>
    by_cases ha : a.job_id = jid
    · simp [kill_job, ha]
    · obtain ⟨ih1, ih2⟩ := ih
      constructor
      · simpa [kill_job, ha] using ih1
      · intro hfalse
        simp only [kill_job, if_neg ha] at hfalse ⊢
        rw [ih2 hfalse]

/-- C6 amended, witnessed: killing id 9 in an empty active set mutates
nothing. -/
theorem C6_amended_witness :
    (kill_job [] (9 : Int)).2 = [] :=
  (C6_amended_thm [] 9).2 rfl

/-- C3 (counterexample): a RUNNING job whose `assigned_core_id` is not in
`[0, num_cores)`.  `execute_job` sets `status = RUNNING` (outside the
scheduler lock) before it calls `assign_core`, so between those two writes
the job — freshly constructed with `assigned_core_id = -1` — is observably
RUNNING with no core, and no Core Table slot references it (the table holds
only availability flags and timestamps, never a job). -/
theorem C3_counterexample :
    (execute_job_set_running jobC3 50).status = JobStatus.RUNNING ∧
    (execute_job_set_running jobC3 50).assigned_core_id = -1 ∧
    ¬ (0 ≤ (execute_job_set_running jobC3 50).assigned_core_id) := by
  refine ⟨by decide, by decide, by decide⟩

/-- C3 (amended): once `assign_core` has found a free slot, the job that
`execute_job` is starting is RUNNING with `assigned_core_id` equal to that
slot's index, the index is within `[0, num_cores)`, and that slot is marked
allocated (unavailable); the Core Table records only the availability flag
and a `last_used` time, not which job holds the slot, and in the window
before the assignment (or when no slot is free) a RUNNING job still carries
`assigned_core_id = -1`. -/
theorem C3_amended_thm (j : JobMetadata) (ct : CoreTable) (now : Nat) (i : Nat)
    (h : assign_core_scan ct.core_availability = some i) :
    (execute_job_begin j ct now).1.status = JobStatus.RUNNING ∧
    (execute_job_begin j ct now).1.assigned_core_id = (i : Int) ∧
    (0 : Int) ≤ (i : Int) ∧ i < ct.core_availability.length ∧
    (execute_job_begin j ct now).2.core_availability.get? i = some false := by
  obtain ⟨hlt, _⟩ := assign_core_scan_sound ct.core_availability i h
  refine ⟨rfl, ?_, Int.ofNat_nonneg i, hlt, ?_⟩
  · simp only [execute_job_begin, assign_core, h]
  · simp only [execute_job_begin, assign_core, h]
    exact get?_set_self ct.core_availability i false hlt

/-- C3 amended, witnessed on a two-slot table whose free slot is index 1. -/
theorem C3_amended_witness :
    (execute_job_begin jobC3 ctC3 50).1.status = JobStatus.RUNNING ∧
    (execute_job_begin jobC3 ctC3 50).1.assigned_core_id = ((1 : Nat) : Int) ∧
    (0 : Int) ≤ ((1 : Nat) : Int) ∧ 1 < ctC3.core_availability.length ∧
    (execute_job_begin jobC3 ctC3 50).2.core_availability.get? 1 = some false :=
  C3_amended_thm jobC3 ctC3 50 1 (by decide)

/-- C7 (counterexample): after a completion the worker's bookkeeping has
bumped the counter but left the stored averages at 0, and `get_system_stats`
returns that stored snapshot verbatim — so for this state, whose completed
set is the single job with `end_time - submit_time = 500`, the returned
`average_turnaround_time` (0) is not the mean over the completed set
(500). -/
theorem C7_counterexample :
    (worker_finish stateC7 jobDoneC7).completed_jobs = [jobDoneC7] ∧
    get_system_stats (worker_finish stateC7 jobDoneC7) =
      { total_jobs_completed := 1 } ∧
    ((worker_finish stateC7 jobDoneC7).completed_jobs.map fun k =>
        ((k.end_time : ℚ) - (k.submit_time : ℚ))).sum /
      ((worker_finish stateC7 jobDoneC7).completed_jobs.length : ℚ) = 500 ∧
    (0 : ℚ) ≠ 500 := by
  have h1 : (worker_finish stateC7 jobDoneC7).completed_jobs = [jobDoneC7] := by
    decide
  refine ⟨h1, by decide, ?_, by norm_num⟩
  rw [h1]
  simp only [List.map_cons, List.map_nil, List.sum_cons, List.sum_nil,
    List.length_cons, List.length_nil, jobDoneC7, mkJob]
  norm_num

/-- C7 (amended): `get_system_stats` returns the stored stats snapshot
without recomputation, and the completion path never writes the averages
(they stay whatever was last stored, initially 0); the recomputation the
spec describes lives in `update_system_stats` — which does set
`average_turnaround_time` to the mean of `end_time - submit_time` and
`average_wait_time` to the mean of `start_time - submit_time` over the
completed set — but no code path invokes it. -/
theorem C7_amended_thm (s : SchedulerState) (j : JobMetadata) (now : Nat)
    (h : s.completed_jobs ≠ []) :
    get_system_stats s = s.stats ∧
    (worker_finish s j).stats.average_turnaround_time =
      s.stats.average_turnaround_time ∧
    (worker_finish s j).stats.average_wait_time = s.stats.average_wait_time ∧
    (update_system_stats s now).stats.average_turnaround_time =
      ((s.completed_jobs.map fun k =>
          ((k.end_time : ℚ) - (k.submit_time : ℚ))).sum /
        (s.completed_jobs.length : ℚ)) ∧
    (update_system_stats s now).stats.average_wait_time =
      ((s.completed_jobs.map fun k =>
          ((k.start_time : ℚ) - (k.submit_time : ℚ))).sum /
        (s.completed_jobs.length : ℚ)) := by
  have hne : s.completed_jobs.isEmpty = false := by
    cases hcl : s.completed_jobs with
    | nil => exact absurd hcl h
    | cons a t => rfl
  refine ⟨rfl, ?_, ?_, ?_, ?_⟩
  · unfold worker_finish
    split_ifs <;> rfl
  · unfold worker_finish
    split_ifs <;> rfl
  · unfold update_system_stats
    rw [hne]
    rfl
  · unfold update_system_stats
    rw [hne]
    rfl

/-- C7 amended, witnessed: on the one-element completed set the recomputed
turnaround average is the single turnaround. -/
theorem C7_amended_witness :
    (update_system_stats { completed_jobs := [jobDoneC7] } 0).stats.average_turnaround_time =
      ((({ completed_jobs := [jobDoneC7] } : SchedulerState).completed_jobs.map fun k =>
          ((k.end_time : ℚ) - (k.submit_time : ℚ))).sum /
        ((({ completed_jobs := [jobDoneC7] } : SchedulerState).completed_jobs.length : ℚ))) :=
  (C7_amended_thm { completed_jobs := [jobDoneC7] } jobC8 0 (by decide)).2.2.2.1

theorem trace_step_completed (s : SchedulerState) (j : JobMetadata)
    (hj : j.status = JobStatus.COMPLETED) :
    (trace_step s j).completed_jobs = s.completed_jobs ++ [j] := by
  have hfound :
      (((s.active_jobs ++ [j]).find? (fun k => k.job_id = j.job_id))).isSome = true := by
    rw [List.find?_isSome]
    exact ⟨j, by simp, by simp⟩
  unfold trace_step worker_finish
  simp only [hfound, if_true, isTerminal, hj]
  simp

theorem runTrace_growth (js : List JobMetadata) (s : SchedulerState)
    (hjs : ∀ j ∈ js, j.status = JobStatus.COMPLETED) :
    (runTrace s js).completed_jobs.length = s.completed_jobs.length + js.length := by
  induction js generalizing s with
  | nil => simp [runTrace]
  | cons a t ih =>
    have ha : a.status = JobStatus.COMPLETED := hjs a (by simp)
    have ht : ∀ j ∈ t, j.status = JobStatus.COMPLETED :=
      fun j hj => hjs j (by simp [hj])
    show (runTrace (trace_step s a) t).completed_jobs.length = _
    rw [ih (trace_step s a) ht, trace_step_completed s a ha]
    simp
    omega

/-- C8 (counterexample): the completed-jobs collection is not bounded by
1000: after 1001 worker-loop completions starting from the empty scheduler
state it holds 1001 entries — the eviction routine
`cleanup_completed_jobs` exists in the source but no code path invokes
it. -/
theorem C8_counterexample :
    (runTrace {} (List.replicate 1001 jobC8)).completed_jobs.length = 1001 ∧
    ¬ ((runTrace {} (List.replicate 1001 jobC8)).completed_jobs.length ≤ 1000) := by
  have hall : ∀ j ∈ List.replicate 1001 jobC8, j.status = JobStatus.COMPLETED := by
    intro j hj
    rw [List.eq_of_mem_replicate hj]
    rfl
  have hlen := runTrace_growth (List.replicate 1001 jobC8) {} hall
  have h0 : ({} : SchedulerState).completed_jobs.length = 0 := rfl
  have h1 : (List.replicate 1001 jobC8).length = 1001 := by
    rw [List.length_replicate]
  rw [h0, h1] at hlen
  exact ⟨by omega, by omega⟩

/-- C8 (amended): each worker-loop completion appends one entry to the
completed collection, which therefore grows without bound — the FIFO cap is
implemented by `cleanup_completed_jobs` (retain the most recent
`min(n, 1000)` entries, i.e. a suffix of the list, evicting the oldest),
but that routine is never invoked. -/
theorem C8_amended_thm (l : List JobMetadata) (s : SchedulerState)
    (js : List JobMetadata)
    (hjs : ∀ j ∈ js, j.status = JobStatus.COMPLETED) :
    (cleanup_completed_jobs l).length = min l.length 1000 ∧
    (∃ t, t ++ cleanup_completed_jobs l = l) ∧
    (runTrace s js).completed_jobs.length =
      s.completed_jobs.length + js.length := by
  refine ⟨?_, ?_, runTrace_growth js s hjs⟩
  · unfold cleanup_completed_jobs
    split_ifs with hgt
    · simp only [List.length_drop]
      omega
    · omega
  · unfold cleanup_completed_jobs
    split_ifs with hgt
    · exact ⟨l.take (l.length - 1000), List.take_append_drop _ _⟩
    · exact ⟨[], rfl⟩

/-- C8 amended, witnessed: a single completion on the empty state yields a
one-entry completed list. -/
theorem C8_amended_witness :
    (runTrace {} [jobC8]).completed_jobs.length =
      (({} : SchedulerState)).completed_jobs.length + [jobC8].length :=
  (C8_amended_thm [] {} [jobC8] (by decide)).2.2

theorem parseScriptLines_ok (lines : List String) (st : ScriptHeader)
    (cmd : String) (st2 : ScriptHeader)
    (h : parseScriptLines lines st = Except.ok (cmd, st2)) :
    ∃ i, lines.get? i = some cmd ∧ cmd ≠ "" ∧ cmd.toList.head? ≠ some '#' ∧
      ∀ m, m < i → ∀ l, lines.get? m = some l →
        l ≠ "" ∧ l.toList.head? = some '#' := by
  induction lines generalizing st with
  | nil => simp [parseScriptLines] at h
  | cons line rest ih =>
    by_cases hbreak : line.toList.isEmpty ∨ line.toList.head? ≠ some '#'
    · by_cases hemp : line.toList.isEmpty
      · simp only [parseScriptLines, if_pos hbreak, if_pos hemp] at h
        exact absurd h (by simp)
      · simp only [parseScriptLines, if_pos hbreak, if_neg hemp] at h
        simp only [Except.ok.injEq, Prod.mk.injEq] at h
        obtain ⟨hline, _⟩ := h
        subst hline
        refine ⟨0, by simp, ?_, ?_, ?_⟩
        · intro hc
          subst hc
          simp at hemp
        · rcases hbreak with he | hh
          · exact absurd he hemp
          · exact hh
        · intro m hm
          omega
    · simp only [parseScriptLines, if_neg hbreak] at h
      have hline_ne : ¬ (line.toList.isEmpty = true) := by
        intro he
        exact hbreak (Or.inl he)
      have hline_hash : line.toList.head? = some '#' := by
        by_contra hh
        exact hbreak (Or.inr hh)
      cases hah : applyHeader st line.toList with
      | none =>
        rw [hah] at h
        exact absurd h (by simp)
      | some st1 =>
        rw [hah] at h
        obtain ⟨i, h1, h2, h3, h4⟩ := ih st1 h
        refine ⟨i + 1, by simpa using h1, h2, h3, ?_⟩
        intro m hm l hl
        cases m with
        | zero =>
          simp only [List.get?] at hl
          have hl2 : line = l := by simpa using hl
          subst hl2
          refine ⟨?_, hline_hash⟩
          intro hc
          subst hc
          simp at hline_ne
        | succ m0 =>
          exact h4 m0 (by omega) l (by simpa using hl)

/-- C9 (counterexample): for the script whose lines are
`["# JOB_NAME: x", "", "echo hi"]` the claim's reading (skip the blank line,
take `"echo hi"` as the command) fails: the parser treats the blank line as
the loop terminator, ends up with an empty command and reports the
`No command found` error — even though a non-header non-blank line is
present. -/
theorem C9_counterexample :
    parse_job_script linesC9 [] 1 0 =
      Except.error "No command found in job script" ∧
    linesC9.get? 2 = some "echo hi" ∧
    ("echo hi" : String) ≠ "" ∧
    ¬ (("echo hi" : String).toList.head? = some '#') := by
  refine ⟨by rfl, by rfl, by decide, by decide⟩

/-- C9 (amended): a successful `submit_script` submits a job whose command
is the first line that is empty or does not begin with `#` — all lines
before it are nonempty `#`-header lines — and that line is nonempty (blank
lines are not skipped; a blank line in that position, or a script that ends
before such a line, produces the descriptive `No command found` error and
no job record). -/
theorem C9_amended_thm (lines : List String) (all_jobs : List JobMetadata)
    (nid : Int) (now : Nat) (j : JobMetadata)
    (h : parse_job_script lines all_jobs nid now = Except.ok j) :
    ∃ i, lines.get? i = some j.command ∧ j.command ≠ "" ∧
      j.command.toList.head? ≠ some '#' ∧
      ∀ m, m < i → ∀ l, lines.get? m = some l →
        l ≠ "" ∧ l.toList.head? = some '#' := by
  unfold parse_job_script at h
  cases hp : parseScriptLines lines {} with
  | error e =>
    rw [hp] at h
    exact absurd h (by simp)
  | ok p =>
    rw [hp] at h
    obtain ⟨cmd, st⟩ := p
    simp only [Except.ok.injEq] at h
    subst h
    have hcmd :
        ({ (if st.job_name ≠ "" then
              { (if st.dependencies ≠ [] ∧
                    ¬ dependencies_satisfied
                      { mkJob nid cmd st.priority now with
                        dependencies := st.dependencies } all_jobs then
                  { { mkJob nid cmd st.priority now with
                      dependencies := st.dependencies } with
                    status := JobStatus.WAITING_DEPS }
                else
                  { mkJob nid cmd st.priority now with
                    dependencies := st.dependencies }) with
                job_name := st.job_name }
            else
              (if st.dependencies ≠ [] ∧
                    ¬ dependencies_satisfied
                      { mkJob nid cmd st.priority now with
                        dependencies := st.dependencies } all_jobs then
                { { mkJob nid cmd st.priority now with
                    dependencies := st.dependencies } with
                  status := JobStatus.WAITING_DEPS }
              else
                { mkJob nid cmd st.priority now with
                  dependencies := st.dependencies })) with
          limits :=
            { max_memory_mb := st.memory_limit
              max_runtime_seconds := st.runtime_limit.toNat
              max_cpu_cores := st.cores }
          type := JobType.BATCH } : JobMetadata).command = cmd := by
      split_ifs <;> rfl
    rw [hcmd]
    exact parseScriptLines_ok lines {} cmd st hp

/-- C9 amended, witnessed: the command of the job parsed from
`["#PRIORITY: HIGH", "echo ok"]` is nonempty. -/
theorem C9_amended_witness : jC9W.command ≠ "" := by
  obtain ⟨i, h1, h2, h3, h4⟩ := C9_amended_thm linesC9W [] 1 0 jC9W (by rfl)
  exact h2

theorem sameComp_refl (l : List JobMetadata) : SameComp l l := by
  induction l with
  | nil => exact SameComp.nil
  | cons a t ih => exact SameComp.cons a a t t rfl Iff.rfl ih

theorem depLookup_eq {l l2 : List JobMetadata} (h : SameComp l l2) (dep : Int) :
    (match l.find? (fun k => k.job_id = dep) with
     | some k => decide (k.status = JobStatus.COMPLETED)
     | none => false) =
    (match l2.find? (fun k => k.job_id = dep) with
     | some k => decide (k.status = JobStatus.COMPLETED)
     | none => false) := by
  induction h with
  | nil => rfl
  | cons a b l l2 hid hst htail ih =>
    by_cases hd : a.job_id = dep
    · have hd2 : b.job_id = dep := hid.symm.trans hd
      simp only [List.find?, decide_eq_true hd, decide_eq_true hd2]
      exact decide_eq_decide.mpr hst
    · have hd2 : ¬ b.job_id = dep := fun hh => hd (hid.trans hh)
      simp only [List.find?, decide_eq_false hd, decide_eq_false hd2]
      exact ih

theorem dependencies_satisfied_eq {l l2 : List JobMetadata} (h : SameComp l l2)
    (j : JobMetadata) :
    dependencies_satisfied j l = dependencies_satisfied j l2 := by
  unfold dependencies_satisfied
  congr 1
  funext dep
  exact depLookup_eq h dep

theorem get?_set_ne {α : Type} (l : List α) (i n : Nat) (x : α) (h : i ≠ n) :
    (l.set i x).get? n = l.get? n := by
  induction l generalizing i n with
  | nil => simp
  | cons a t ih =>
    cases i with
    | zero =>
      cases n with
      | zero => exact absurd rfl h
      | succ n0 => simp
    | succ i0 =>
      cases n with
      | zero => simp
      | succ n0 => simpa using ih i0 n0 (fun hh => h (by rw [hh]))

theorem get?_some_lt {α : Type} (l : List α) (i : Nat) (x : α)
    (h : l.get? i = some x) : i < l.length := by
  induction l generalizing i with
  | nil => simp at h
  | cons a t ih =>
    cases i with
    | zero => simp
    | succ i0 => simpa using ih i0 (by simpa using h)

theorem set_sameComp (l : List JobMetadata) (i : Nat) (j v : JobMetadata)
    (hget : l.get? i = some j) (hid : j.job_id = v.job_id)
    (hst : j.status = JobStatus.COMPLETED ↔ v.status = JobStatus.COMPLETED) :
    SameComp l (l.set i v) := by
  induction l generalizing i with
  | nil => simp at hget
  | cons a t ih =>
    cases i with
    | zero =>
      obtain rfl : a = j := by simpa using hget
      exact SameComp.cons a v t t hid hst (sameComp_refl t)
    | succ i0 =>
      exact SameComp.cons a a t (t.set i0 v) rfl Iff.rfl
        (ih i0 (by simpa using hget))

theorem promote_at_sameComp (cid : Int) (jobs : List JobMetadata) (i : Nat) :
    SameComp jobs (promote_at cid jobs i) := by
  unfold promote_at
  split
  · exact sameComp_refl jobs
  · rename_i j hg
    split_ifs with hcond
    · refine set_sameComp jobs i j { j with status := JobStatus.PENDING } hg rfl ?_
      obtain ⟨h1, _, _⟩ := hcond
      constructor
      · intro hc
        rw [h1] at hc
        exact absurd hc (by decide)
      · intro hc
        simp at hc
    · exact sameComp_refl jobs

theorem promote_at_stable (cid : Int) (jobs : List JobMetadata) (i n : Nat)
    (j : JobMetadata) (hget : jobs.get? n = some j)
    (hj : j.status ≠ JobStatus.WAITING_DEPS) :
    (promote_at cid jobs i).get? n = some j := by
  unfold promote_at
  split
  · exact hget
  · rename_i ji hg
    split_ifs with hcond
    · by_cases hin : i = n
      · subst hin
        rw [hg] at hget
        obtain rfl : ji = j := by simpa using hget
        exact absurd hcond.1 hj
      · rw [get?_set_ne jobs i n _ hin]
        exact hget
    · exact hget

theorem promoteFold_stable (cid : Int) (idxs : List Nat) (jobs : List JobMetadata)
    (n : Nat) (j : JobMetadata) (hget : jobs.get? n = some j)
    (hj : j.status ≠ JobStatus.WAITING_DEPS) :
    (idxs.foldl (promote_at cid) jobs).get? n = some j := by
  induction idxs generalizing jobs with
  | nil => exact hget
  | cons i t ih =>
    exact ih (promote_at cid jobs i) (promote_at_stable cid jobs i n j hget hj)

theorem promote_at_get (cid : Int) (jobs : List JobMetadata) (i n : Nat)
    (j : JobMetadata) (hget : jobs.get? n = some j) :
    (promote_at cid jobs i).get? n = some j ∨
    ((promote_at cid jobs i).get? n =
        some { j with status := JobStatus.PENDING } ∧
      j.status = JobStatus.WAITING_DEPS ∧
      dependencies_satisfied j jobs = true) := by
  unfold promote_at
  split
  · exact Or.inl hget
  · rename_i ji hg
    split_ifs with hcond
    · by_cases hin : i = n
      · subst hin
        rw [hg] at hget
        obtain rfl : ji = j := by simpa using hget
        right
        have hlen : i < jobs.length := get?_some_lt jobs i ji hg
        exact ⟨get?_set_self jobs i _ hlen, hcond.1, hcond.2.2⟩
      · left
        rw [get?_set_ne jobs i n _ hin]
        exact hget
    · exact Or.inl hget

theorem promoteFold_change (cid : Int) (idxs : List Nat)
    (jobs : List JobMetadata) (n : Nat) (j j2 : JobMetadata)
    (hget : jobs.get? n = some j)
    (hget2 : (idxs.foldl (promote_at cid) jobs).get? n = some j2)
    (hw : j.status = JobStatus.WAITING_DEPS)
    (hnw : j2.status ≠ JobStatus.WAITING_DEPS) :
    dependencies_satisfied j jobs = true ∧
    j2 = { j with status := JobStatus.PENDING } := by
  induction idxs generalizing jobs with
  | nil =>
    rw [List.foldl_nil] at hget2
    rw [hget] at hget2
    obtain rfl : j = j2 := by simpa using hget2
    exact absurd hw hnw
  | cons i t ih =>
    rw [List.foldl_cons] at hget2
    rcases promote_at_get cid jobs i n j hget with h1 | ⟨h1, _, hsat⟩
    · obtain ⟨hsat1, hj2⟩ := ih (promote_at cid jobs i) h1 hget2
      refine ⟨?_, hj2⟩
      rw [dependencies_satisfied_eq (promote_at_sameComp cid jobs i) j]
      exact hsat1
    · have hstable := promoteFold_stable cid t (promote_at cid jobs i) n
        { j with status := JobStatus.PENDING } h1 (by simp)
      rw [hstable] at hget2
      obtain rfl : { j with status := JobStatus.PENDING } = j2 := by
        simpa using hget2
      exact ⟨hsat, rfl⟩

theorem deps_sat_elim (j : JobMetadata) (l : List JobMetadata)
    (h : dependencies_satisfied j l = true) :
    ∀ d ∈ j.dependencies,
      ∃ k ∈ l, k.job_id = d ∧ k.status = JobStatus.COMPLETED := by
  intro d hd
  unfold dependencies_satisfied at h
  rw [List.all_eq_true] at h
  have hx := h d hd
  cases hf : l.find? (fun k => k.job_id = d) with
  | none =>
    rw [hf] at hx
    simp at hx
  | some k =>
    rw [hf] at hx
    refine ⟨k, List.mem_of_find?_eq_some hf, ?_, ?_⟩
    · have hp := List.find?_some hf
      simpa using hp
    · simpa using hx

/-- C5: a job leaves WAITING_DEPS through `update_job_dependencies` only
when every id in its `dependencies` names a submitted job (present in
`all_jobs_`) whose status is COMPLETED — the completion of one dependency
triggers only a re-check, and a job with any other unsatisfied dependency
is not released; the released job's record changes exactly by
`status := PENDING`. -/
theorem C5_thm (cid : Int) (jobs : List JobMetadata) (n : Nat)
    (j j2 : JobMetadata)
    (hget : jobs.get? n = some j)
    (hget2 : (update_job_dependencies cid jobs).get? n = some j2)
    (hw : j.status = JobStatus.WAITING_DEPS)
    (hnw : j2.status ≠ JobStatus.WAITING_DEPS) :
    (∀ d ∈ j.dependencies,
      ∃ k ∈ jobs, k.job_id = d ∧ k.status = JobStatus.COMPLETED) ∧
    j2 = { j with status := JobStatus.PENDING } := by
  obtain ⟨hsat, hj2⟩ := promoteFold_change cid (List.range jobs.length) jobs n
    j j2 hget hget2 hw hnw
  exact ⟨deps_sat_elim j jobs hsat, hj2⟩

/-- C5, witnessed: when job 1 (COMPLETED) is the single dependency of the
waiting job 2, the promotion pass releases job 2 to PENDING, changing
nothing else in its record. -/
theorem C5_witness :
    ({ mkJob 2 "echo done" JobPriority.MEDIUM 0 with
        status := JobStatus.PENDING, dependencies := [1] } : JobMetadata) =
      { jobWaitC5 with status := JobStatus.PENDING } :=
  (C5_thm 1 jobsC5 1 jobWaitC5
      { mkJob 2 "echo done" JobPriority.MEDIUM 0 with
        status := JobStatus.PENDING, dependencies := [1] }
      (by rfl) (by rfl) (by rfl) (by decide)).2

/-- C10: the simulated `memory_usage_mb` never exceeds the declared
`limits.max_memory_mb` — it is 0 at construction, and
`simulate_memory_usage` clamps the computed value with `std::min`. -/
theorem C10_thm (id : Int) (cmd : String) (p : JobPriority) (now : Nat)
    (j : JobMetadata) :
    (mkJob id cmd p now).memory_usage_mb = 0 ∧
    (simulate_memory_usage j).memory_usage_mb ≤ j.limits.max_memory_mb := by
  constructor
  · rfl
  · simp only [simulate_memory_usage]
    exact Nat.min_le_right _ j.limits.max_memory_mb

end ThreadShell
